import Mathlib

/-
Verification of the receipt-OCR batch pipeline (LLM.py): the document
normalization and batch orchestration core.  The external collaborators
(the generative-model API call, Python's json.loads, pdf2image, PyMuPDF,
PIL) are modelled as explicit environment parameters; every piece of
control flow of the repository's own code (the try/except structure of
parse_with_llm, the pdf2image-then-PyMuPDF fallback of
pdf_to_images_robust, the module-level batch loop with its per-document
except/continue, row construction and progress reporting, and the
st.cache_data memoization of parse_with_llm) is translated directly from
the source.
-/

namespace ReceiptOCR

/-- Raw byte buffers (Python bytes), modelled as lists of byte values. -/
abbrev Bytes := List Nat

/-- JSON values as produced by Python's json.loads: objects become
association lists of key/value pairs, null becomes Json.null (also the
model for Python None). -/
inductive Json where
  | null : Json
  | bool (b : Bool) : Json
  | num (n : Int) : Json
  | str (s : String) : Json
  | arr (elems : List Json) : Json
  | obj (kvs : List (String × Json)) : Json

/-- True exactly on JSON objects (Python dicts). -/
def Json.isObj : Json → Bool
  | .obj _ => true
  | _ => false

/-- Characters matched by Python's regex class \s (ASCII range). -/
def pySpace (c : Char) : Bool :=
  c = ' ' || c = '\t' || c = '\n' || c = '\r' || c = '\x0b' || c = '\x0c'

/-- The literal chunk matched by the first regex alternative in
parse_with_llm's fence-stripping re.sub. -/
def fenceJson : List Char := "```json".toList

/-- The literal backtick fence matched by the second regex alternative. -/
def fenceTicks : List Char := "```".toList

/-- Left-to-right scan implementing
re.sub of the pattern alternating a json fence plus trailing whitespace
with whitespace plus a closing fence, deleting every match, as in
parse_with_llm.  The first alternative is tried first at each position;
the second alternative's greedy leading whitespace can only succeed when
the backticks directly follow the maximal whitespace run. -/
def stripAux : List Char → List Char
  | [] => []
  | c :: rest =>
    if fenceJson.isPrefixOf (c :: rest) then
      stripAux (((c :: rest).drop 7).drop (((c :: rest).drop 7).takeWhile pySpace).length)
    else
      if fenceTicks.isPrefixOf ((c :: rest).drop ((c :: rest).takeWhile pySpace).length) then
        stripAux ((c :: rest).drop (((c :: rest).takeWhile pySpace).length + 3))
      else
        c :: stripAux rest
termination_by cs => cs.length
decreasing_by
  · simp [List.length_drop]
    omega
  · simp [List.length_drop]
    omega
  · simp

/-- String version of the fence-stripping substitution in parse_with_llm. -/
def stripFences (s : String) : String := String.mk (stripAux s.toList)

/-- External collaborators used by parse_with_llm: the generative-model
call (GenerativeModel + generate_content, returning response.text or
raising) and Python's json.loads (returning a decoded value or raising).
An Except.error models a raised exception. -/
structure LLMEnv where
  generate : Bytes → Except String String
  jsonLoads : String → Except String Json

/-- Body of parse_with_llm's try block: call the model, strip code
fences from the response text, parse it as JSON.  Any raised exception
surfaces as Except.error. -/
def llmCall (env : LLMEnv) (image_data : Bytes) : Except String Json :=
  match env.generate image_data with
  | .error e => .error e
  | .ok txt => env.jsonLoads (stripFences txt)

/-- The all-null record literal returned by parse_with_llm's except
branch, with keys in source order. -/
def nullFields : Json :=
  Json.obj [("date_time", Json.null), ("company_name", Json.null),
    ("business_number", Json.null), ("address", Json.null),
    ("phone_number", Json.null), ("business_type", Json.null)]

/-- Translation of parse_with_llm (without the st.cache_data wrapper,
modelled separately as cachedParse): on success the parsed JSON value is
returned verbatim; on any exception the all-null record is returned. -/
def parse_with_llm (env : LLMEnv) (image_data : Bytes) : Json :=
  match llmCall env image_data with
  | .ok parsed => parsed
  | .error _ => nullFields

/-- The st.cache_data memoization cache: an association of input byte
buffers to previously returned records. -/
abbrev Cache := List (Bytes × Json)

/-- Cache lookup keyed by the exact input byte buffer. -/
def cacheFind (d : Bytes) : Cache → Option Json
  | [] => none
  | (k, v) :: rest => if k = d then some v else cacheFind d rest

/-- Result of one call through the memoizing wrapper: the returned
record, the updated cache, and how many times the underlying
parse_with_llm body actually ran (0 on a cache hit, 1 on a miss). -/
structure CallResult where
  value : Json
  cache : Cache
  calls : Nat

/-- The st.cache_data wrapper around parse_with_llm: on a hit the cached
record is returned without running the body; on a miss the body runs
once and its result is stored. -/
def cachedParse (env : LLMEnv) (c : Cache) (d : Bytes) : CallResult :=
  match cacheFind d c with
  | some v => ⟨v, c, 0⟩
  | none => ⟨parse_with_llm env d, (d, parse_with_llm env d) :: c, 1⟩

/-- Sequence of n calls of the cached extraction on the same byte
buffer, threading the cache; returns the list of returned records, the
final cache, and the total number of underlying body invocations. -/
def repeatedCalls (env : LLMEnv) (d : Bytes) : Cache → Nat → List Json × Cache × Nat
  | c, 0 => ([], c, 0)
  | c, Nat.succ k =>
    let r := cachedParse env c d
    let t := repeatedCalls env d r.cache k
    (r.value :: t.1, t.2.1, r.calls + t.2.2)

/-- Lookup of a key in a decoded JSON object's pairs (Python dict
indexing underlying dict.get). -/
def assocFind (key : String) : List (String × Json) → Option Json
  | [] => none
  | (k, v) :: rest => if k = key then some v else assocFind key rest

/-- Python's dict.get(key): the stored value, or None for a missing key
(None and JSON null are both modelled as Json.null). -/
def dictGet (kvs : List (String × Json)) (key : String) : Json :=
  (assocFind key kvs).getD Json.null

/-- One row of all_extracted_data: the File Name label plus the six
field columns (source display labels 일시, 상호명, 사업자번호, 주소,
전화번호, 업종, carried here under the canonical JSON key names used to
read them). -/
structure OutputRow where
  file_name : String
  date_time : Json
  company_name : Json
  business_number : Json
  address : Json
  phone_number : Json
  business_type : Json

/-- Projection of a row's field column by its canonical key name. -/
def rowField (r : OutputRow) (key : String) : Option Json :=
  if key = "date_time" then some r.date_time
  else if key = "company_name" then some r.company_name
  else if key = "business_number" then some r.business_number
  else if key = "address" then some r.address
  else if key = "phone_number" then some r.phone_number
  else if key = "business_type" then some r.business_type
  else none

/-- Row construction from a parsed record, as written at both append
sites of the batch loop: six parsed_info.get reads.  A Python .get on a
non-dict value raises AttributeError, modelled as Except.error. -/
def rowOf (label : String) (parsed : Json) : Except String OutputRow :=
  match parsed with
  | .obj kvs =>
    .ok ⟨label, dictGet kvs "date_time", dictGet kvs "company_name",
      dictGet kvs "business_number", dictGet kvs "address",
      dictGet kvs "phone_number", dictGet kvs "business_type"⟩
  | _ => .error "AttributeError"

/-- The multi-page row label built in the PDF branch of the batch loop. -/
def pageLabel (name : String) (idx : Nat) : String :=
  name ++ " - Page " ++ toString idx

/-- ASCII lowercase mapping, as str.lower on the extension. -/
def pyLower (s : String) : String := String.mk (s.data.map Char.toLower)

/-- Extension extraction as os.path.splitext(name)[1].lower(): leading
dots of the name never start an extension; the extension runs from the
last remaining dot (inclusive) to the end, lowercased. -/
def file_extension (name : String) : String :=
  let cs := name.toList
  let rest := cs.drop (cs.takeWhile (fun c => c = '.')).length
  let tail := (rest.reverse.takeWhile (fun c => c ≠ '.')).reverse
  if tail.length = rest.length then ""
  else pyLower (String.mk ('.' :: tail))

/-- One uploaded file: its name and the bytes from getvalue(). -/
structure UploadedFile where
  name : String
  bytes : Bytes

/-- External collaborators of the renderer and batch loop, over abstract
raster-image and PDF-page types: pdf2image.convert_from_bytes (primary
backend), fitz.open on a byte stream, page.get_pixmap with a transform
matrix followed by pix.tobytes png (combined, since the pixmap itself is
only ever serialized), PIL Image.open, and PIL save to JPEG (the
re-encode of a rendered PDF page before extraction). -/
structure OrchEnv (Image Page : Type) where
  llm : LLMEnv
  convertFromBytes : Bytes → Nat → Except String (List Image)
  openDoc : Bytes → Except String (List Page)
  getPixmapPng : Page → ℚ × ℚ → Except String Bytes
  imageOpen : Bytes → Except String Image
  saveJpeg : Image → Bytes

/-- Translation of pdf_to_images_robust: try pdf2image at the given dpi;
if it raises anything, fall back to PyMuPDF, opening the stream and
rasterizing each page in order with a matrix of dpi/72 in both axes; a
failure of the fallback propagates. -/
def pdf_to_images_robust {Image Page : Type} (E : OrchEnv Image Page)
    (pdf_bytes : Bytes) (dpi : Nat) : Except String (List Image) :=
  match E.convertFromBytes pdf_bytes dpi with
  | .ok imgs => .ok imgs
  | .error _ =>
    match E.openDoc pdf_bytes with
    | .error e => .error e
    | .ok pages =>
      pages.mapM (fun page =>
        (E.getPixmapPng page ((dpi : ℚ) / 72, (dpi : ℚ) / 72)).bind E.imageOpen)

/-- Inner page loop of the PDF branch: for each rendered image, save to
JPEG bytes, run the cached extraction, and append one row labeled
name - Page idx (idx 1-based).  The Bool reports whether an exception
escaped mid-loop (a non-dict parsed record); rows appended before the
exception are kept, matching the mutation of all_extracted_data before
the enclosing except. -/
def pdfLoop {Image Page : Type} (E : OrchEnv Image Page) (name : String) :
    List Image → Nat → Cache → List OutputRow × Cache × Bool
  | [], _, c => ([], c, false)
  | img :: rest, idx, c =>
    let r := cachedParse E.llm c (E.saveJpeg img)
    match rowOf (pageLabel name idx) r.value with
    | .error _ => ([], r.cache, true)
    | .ok row =>
      let t := pdfLoop E name rest (idx + 1) r.cache
      (row :: t.1, t.2.1, t.2.2)

/-- Accumulated outcome of the batch loop: the rows of
all_extracted_data, the progress updates that were issued (as the
completed-count/total-count pairs carried by each progress_bar.progress
call), and the final memoization cache. -/
structure BatchResult where
  rows : List OutputRow
  progress : List (Nat × Nat)
  cache : Cache

/-- Translation of the module-level batch loop over uploaded_files,
starting at document index i with the given total count: a .pdf
extension selects the PDF branch (render robustly at dpi 300, then the
page loop; any exception there is caught and the loop continues with no
progress update for that document); any other extension passes the raw
file bytes directly to the cached extraction and appends one bare-name
row, where a raised AttributeError is uncaught and aborts the batch.
The progress call at the bottom of the loop body records (i+1, total)
and is skipped by the except branch's continue. -/
def processFiles {Image Page : Type} (E : OrchEnv Image Page) :
    List UploadedFile → Nat → Nat → Cache → Except String BatchResult
  | [], _, _, c => .ok ⟨[], [], c⟩
  | f :: fs, i, total, c =>
    if file_extension f.name = ".pdf" then
      match pdf_to_images_robust E f.bytes 300 with
      | .error _ => processFiles E fs (i + 1) total c
      | .ok imgs =>
        let t := pdfLoop E f.name imgs 1 c
        match processFiles E fs (i + 1) total t.2.1 with
        | .error e => .error e
        | .ok r =>
          .ok ⟨t.1 ++ r.rows,
            (if t.2.2 then [] else [(i + 1, total)]) ++ r.progress, r.cache⟩
    else
      let pr := cachedParse E.llm c f.bytes
      match rowOf f.name pr.value with
      | .error e => .error e
      | .ok row =>
        match processFiles E fs (i + 1) total pr.cache with
        | .error e => .error e
        | .ok r => .ok ⟨row :: r.rows, (i + 1, total) :: r.progress, r.cache⟩

/-- The whole batch run as triggered by the read button: document index
starts at 0, the total is the number of uploaded files, and the
st.cache_data cache starts empty. -/
def process {Image Page : Type} (E : OrchEnv Image Page)
    (files : List UploadedFile) : Except String BatchResult :=
  processFiles E files 0 files.length []

/-- Hypothesis on an environment: json.loads only ever hands back JSON
objects (the shape the model is instructed to produce). -/
def objValued (env : LLMEnv) : Prop :=
  ∀ s j, env.jsonLoads s = Except.ok j → j.isObj = true

/-- Hypothesis on a cache: every memoized record is a JSON object. -/
def cacheObjs (c : Cache) : Prop :=
  ∀ e ∈ c, (e.2).isObj = true

/-- Extraction environment whose model call always raises (network
failure); json.loads is never consulted successfully. -/
def envFail : LLMEnv :=
  ⟨fun _ => Except.error "network error", fun _ => Except.error "no parse"⟩

/-- Extraction environment whose model call succeeds and whose response
parses to an object carrying one expected key and one extra key. -/
def envExtraKey : LLMEnv :=
  ⟨fun _ => Except.ok "resp",
   fun _ => Except.ok (Json.obj [("date_time", Json.str "x"), ("extra", Json.str "y")])⟩

/-- Concrete orchestration environment for scenario runs: the bytes [1]
render (via the primary backend) to two pages, the bytes [2] fail both
backends, any other PDF bytes render to one page; every model call
raises, so every extraction yields the all-null record. -/
def scenEnv : OrchEnv Nat Nat :=
  ⟨envFail,
   fun b _ => if b = [1] then Except.ok [10, 11]
     else if b = [2] then Except.error "bad pdf" else Except.ok [30],
   fun _ => Except.error "fitz fail",
   fun _ _ => Except.error "no pixmap",
   fun _ => Except.error "no image",
   fun img => [img]⟩

/-- Two-page PDF document A of the order-preservation scenario. -/
def fileA : UploadedFile := ⟨"a.pdf", [1]⟩

/-- PDF document B of the scenario, failing both rendering backends. -/
def fileB : UploadedFile := ⟨"b.pdf", [2]⟩

/-- Single image document C of the scenario. -/
def fileC : UploadedFile := ⟨"c.jpg", [3]⟩

/-- Orchestration environment exercising the PyMuPDF fallback: the
primary backend raises, fitz opens two pages, and each page rasterizes
and decodes to the image 100 + page. -/
def w9env : OrchEnv Nat Nat :=
  ⟨envFail,
   fun _ _ => Except.error "poppler missing",
   fun _ => Except.ok [0, 1],
   fun p _ => Except.ok [p],
   fun bs => Except.ok (100 + bs.headD 0),
   fun img => [img]⟩

/-- Helper: once a byte buffer is cached, any number of further cached
calls return the stored record and never run the extraction body. -/
theorem repeatedCalls_hit (env : LLMEnv) (d : Bytes) (c : Cache) (v : Json)
    (h : cacheFind d c = some v) :
    ∀ k, repeatedCalls env d c k = (List.replicate k v, c, 0) := by
  intro k
  induction k with
  | zero => rfl
  | succ n ih => simp [repeatedCalls, cachedParse, h, ih, List.replicate]

/-- C3: the extraction operation never raises (in this embedding it is a
total function by translation of the all-enclosing try/except of
parse_with_llm), and on any internal failure of the model call, of
authentication, or of response parsing it returns a record in which all
six canonical fields are present and null. -/
theorem C3_extraction_total_failure_shape (env : LLMEnv) (d : Bytes) (err : String)
    (h : llmCall env d = Except.error err) :
    parse_with_llm env d =
      Json.obj [("date_time", Json.null), ("company_name", Json.null),
        ("business_number", Json.null), ("address", Json.null),
        ("phone_number", Json.null), ("business_type", Json.null)] := by
  unfold parse_with_llm
  rw [h]
  rfl

/-- Witness for C3: a concrete environment whose model call raises a
network error yields exactly the all-null six-field record. -/
theorem C3_witness :
    llmCall envFail [1, 2] = Except.error "network error" ∧
    parse_with_llm envFail [1, 2] =
      Json.obj [("date_time", Json.null), ("company_name", Json.null),
        ("business_number", Json.null), ("address", Json.null),
        ("phone_number", Json.null), ("business_type", Json.null)] :=
  ⟨rfl, C3_extraction_total_failure_shape envFail [1, 2] "network error" rfl⟩

/-- C6 counterexample: on the success path parse_with_llm returns the
model's parsed JSON verbatim, so an extra key survives into the returned
record and a missing canonical key stays absent — refuting the claim
that the returned record always carries exactly the six canonical keys. -/
theorem C6_counterexample :
    parse_with_llm envExtraKey [0] =
      Json.obj [("date_time", Json.str "x"), ("extra", Json.str "y")] ∧
    assocFind "extra" [("date_time", Json.str "x"), ("extra", Json.str "y")]
      = some (Json.str "y") ∧
    assocFind "company_name" [("date_time", Json.str "x"), ("extra", Json.str "y")]
      = none :=
  ⟨rfl, rfl, rfl⟩

/-- C6 as amended: the six-key shape is guaranteed only on the failure
path, where the all-null record is returned; on the success path the
parsed JSON value is passed through verbatim, extra keys retained and
missing keys absent (the whitelist is applied later, at row
construction). -/
theorem C6_record_passthrough (env : LLMEnv) (d : Bytes) :
    (∀ err, llmCall env d = Except.error err → parse_with_llm env d = nullFields) ∧
    (∀ j, llmCall env d = Except.ok j → parse_with_llm env d = j) := by
  constructor
  · intro err h; unfold parse_with_llm; rw [h]
  · intro j h; unfold parse_with_llm; rw [h]

/-- Witness for C6: both branches of the amended statement at concrete
environments. -/
theorem C6_witness :
    parse_with_llm envFail [0] = nullFields ∧
    parse_with_llm envExtraKey [0] =
      Json.obj [("date_time", Json.str "x"), ("extra", Json.str "y")] :=
  ⟨(C6_record_passthrough envFail [0]).1 "network error" rfl,
   (C6_record_passthrough envExtraKey [0]).2
     (Json.obj [("date_time", Json.str "x"), ("extra", Json.str "y")]) rfl⟩

/-- C8: two cached extraction calls on byte-identical input, from any
starting cache state, run the underlying collaborator at most once in
total and return identical records. -/
theorem C8_memoized_pair (env : LLMEnv) (c : Cache) (d : Bytes) :
    (repeatedCalls env d c 2).2.2 ≤ 1 ∧ ∃ r, (repeatedCalls env d c 2).1 = [r, r] := by
  cases h : cacheFind d c with
  | some v =>
    rw [repeatedCalls_hit env d c v h 2]
    exact ⟨by simp, v, by simp [List.replicate]⟩
  | none =>
    have h2 : cacheFind d ((d, parse_with_llm env d) :: c)
        = some (parse_with_llm env d) := by simp [cacheFind]
    refine ⟨?_, ⟨parse_with_llm env d, ?_⟩⟩ <;>
      simp [repeatedCalls, cachedParse, h, h2]

/-- C10: when the first extraction for a byte buffer fails, the all-null
record is memoized, and every one of the k further calls on the same
bytes returns that all-null record while the underlying collaborator is
run exactly once over the whole sequence. -/
theorem C10_failures_cached_permanently (env : LLMEnv) (c : Cache) (d : Bytes)
    (err : String) (k : Nat)
    (hmiss : cacheFind d c = none) (hfail : llmCall env d = Except.error err) :
    repeatedCalls env d c (k + 1) =
      (List.replicate (k + 1) nullFields, (d, nullFields) :: c, 1) := by
  have hp : parse_with_llm env d = nullFields := by unfold parse_with_llm; rw [hfail]
  have hhit : cacheFind d ((d, nullFields) :: c) = some nullFields := by simp [cacheFind]
  simp [repeatedCalls, cachedParse, hmiss, hp,
    repeatedCalls_hit env d ((d, nullFields) :: c) nullFields hhit k, List.replicate]

/-- Witness for C10: a concrete failing environment, an empty starting
cache, and one retry after the first call. -/
theorem C10_witness :
    cacheFind [0] [] = none ∧ llmCall envFail [0] = Except.error "network error" ∧
    repeatedCalls envFail [0] [] 2 =
      (List.replicate 2 nullFields, [([0], nullFields)], 1) :=
  ⟨rfl, rfl, C10_failures_cached_permanently envFail [] [0] "network error" 1 rfl rfl⟩

/-- Helper: List.mapM into Except succeeds with the pointwise map when
every element succeeds. -/
theorem mapM_ok_of_forall {P I : Type} (g : P → Except String I) (f : P → I) :
    ∀ pages : List P, (∀ p ∈ pages, g p = Except.ok (f p)) →
      pages.mapM g = Except.ok (pages.map f) := by
  intro pages
  induction pages with
  | nil => intro _; rfl
  | cons p rest ih =>
    intro h
    rw [List.mapM_cons, h p (List.mem_cons_self p rest),
      ih (fun q hq => h q (List.mem_cons_of_mem p hq))]
    rfl

/-- C9: the robust PDF renderer first tries the primary backend at the
given dpi and keeps its pages on success; on any primary error it falls
back to opening the stream and rasterizing each page, in order, with a
transform matrix of dpi/72, and a failure of the fallback propagates as
the render error. -/
theorem C9_pdf_fallback_chain {Image Page : Type} (E : OrchEnv Image Page)
    (b : Bytes) (dpi : Nat) :
    (∀ imgs, E.convertFromBytes b dpi = Except.ok imgs →
        pdf_to_images_robust E b dpi = Except.ok imgs) ∧
    (∀ e, E.convertFromBytes b dpi = Except.error e →
        ((∀ e2, E.openDoc b = Except.error e2 →
            pdf_to_images_robust E b dpi = Except.error e2) ∧
         (∀ (pages : List Page) (f : Page → Image),
            E.openDoc b = Except.ok pages →
            (∀ p ∈ pages,
              (E.getPixmapPng p ((dpi : ℚ) / 72, (dpi : ℚ) / 72)).bind E.imageOpen
                = Except.ok (f p)) →
            pdf_to_images_robust E b dpi = Except.ok (pages.map f)))) := by
  refine ⟨?_, ?_⟩
  · intro imgs h; unfold pdf_to_images_robust; rw [h]
  · intro e h
    refine ⟨?_, ?_⟩
    · intro e2 h2; unfold pdf_to_images_robust; rw [h, h2]
    · intro pages f h2 h3
      unfold pdf_to_images_robust; rw [h, h2]
      exact mapM_ok_of_forall _ f pages h3

/-- Witness for C9: the fallback path on a two-page document whose
primary backend is missing, and the primary path on a document the
primary backend renders. -/
theorem C9_witness :
    pdf_to_images_robust w9env [5] 300 = Except.ok [100, 101] ∧
    pdf_to_images_robust scenEnv [9] 300 = Except.ok [30] := by
  constructor
  · exact ((C9_pdf_fallback_chain w9env [5] 300).2 "poppler missing" rfl).2 [0, 1]
      (fun p => 100 + p) rfl (by intro p hp; fin_cases hp <;> rfl)
  · exact (C9_pdf_fallback_chain scenEnv [9] 300).1 [30] rfl

/-- Helper: a Boolean-object JSON value is an obj constructor. -/
theorem isObj_exists (j : Json) (h : j.isObj = true) : ∃ kvs, j = Json.obj kvs := by
  cases j
  case obj kvs => exact ⟨kvs, rfl⟩
  all_goals simp [Json.isObj] at h

/-- Helper: the empty cache trivially stores only objects. -/
theorem cacheObjs_nil : cacheObjs [] := by
  intro e he
  exact absurd he (List.not_mem_nil e)

/-- Helper: the always-failing model environment vacuously returns only
objects from json.loads. -/
theorem envFail_objValued : objValued envFail := by
  intro s j h
  simp [envFail] at h

/-- Helper: parse_with_llm returns an object whenever json.loads only
produces objects, since the failure branch returns the all-null object. -/
theorem parse_with_llm_isObj (env : LLMEnv) (d : Bytes) (h : objValued env) :
    (parse_with_llm env d).isObj = true := by
  unfold parse_with_llm
  cases hc : llmCall env d with
  | error e => rfl
  | ok j =>
    unfold llmCall at hc
    cases hg : env.generate d with
    | error e => rw [hg] at hc; simp at hc
    | ok txt => rw [hg] at hc; exact h _ _ hc

/-- Helper: a cache of objects only yields objects on lookup. -/
theorem cacheFind_isObj :
    ∀ c : Cache, cacheObjs c → ∀ d v, cacheFind d c = some v → v.isObj = true := by
  intro c
  induction c with
  | nil => intro _ d v h; cases h
  | cons e rest ih =>
    intro hc d v h
    obtain ⟨k, w⟩ := e
    by_cases hk : k = d
    · simp only [cacheFind, if_pos hk] at h
      injection h with h2
      rw [← h2]
      exact hc (k, w) (List.mem_cons_self _ _)
    · simp only [cacheFind, if_neg hk] at h
      exact ih (fun e he => hc e (List.mem_cons_of_mem _ he)) d v h

/-- Helper: the cached extraction preserves the everything-is-an-object
invariant and returns an object. -/
theorem cachedParse_isObj (env : LLMEnv) (c : Cache) (d : Bytes)
    (hE : objValued env) (hc : cacheObjs c) :
    (cachedParse env c d).value.isObj = true ∧ cacheObjs (cachedParse env c d).cache := by
  unfold cachedParse
  cases h : cacheFind d c with
  | some v => exact ⟨cacheFind_isObj c hc d v h, hc⟩
  | none =>
    refine ⟨parse_with_llm_isObj env d hE, ?_⟩
    intro e he
    rcases List.mem_cons.mp he with h1 | h1
    · rw [h1]
      exact parse_with_llm_isObj env d hE
    · exact hc e h1

/-- Helper: when every extraction result is an object, the PDF page loop
never raises, appends one row per rendered page labeled
name - Page idx in page order, and keeps the cache invariant. -/
theorem pdfLoop_spec {Image Page : Type} (E : OrchEnv Image Page) (name : String)
    (hE : objValued E.llm) :
    ∀ (imgs : List Image) (idx : Nat) (c : Cache), cacheObjs c →
      (pdfLoop E name imgs idx c).2.2 = false ∧
      (pdfLoop E name imgs idx c).1.map (fun row => row.file_name)
        = (List.range imgs.length).map (fun p => pageLabel name (idx + p)) ∧
      cacheObjs (pdfLoop E name imgs idx c).2.1 := by
  intro imgs
  induction imgs with
  | nil =>
    intro idx c hc
    exact ⟨rfl, rfl, hc⟩
  | cons img rest ih =>
    intro idx c hc
    have hcp := cachedParse_isObj E.llm c (E.saveJpeg img) hE hc
    obtain ⟨kvs, hv⟩ := isObj_exists _ hcp.1
    have hrec := ih (idx + 1) (cachedParse E.llm c (E.saveJpeg img)).cache hcp.2
    simp only [pdfLoop, hv, rowOf]
    refine ⟨hrec.1, ?_, hrec.2.2⟩
    simp only [List.map_cons, List.length_cons, List.range_succ_eq_map, List.map_map]
    rw [hrec.2.1]
    have harith : ((fun p => pageLabel name (idx + p)) ∘ Nat.succ)
        = fun p => pageLabel name (idx + 1 + p) := by
      funext p
      simp only [Function.comp]
      congr 1
      omega
    rw [harith]
    simp

/-- Helper: the batch loop distributes over list append — documents are
processed strictly in input order, rows and progress updates concatenate
in that order, and the cache threads left to right. -/
theorem processFiles_append {Image Page : Type} (E : OrchEnv Image Page) :
    ∀ (gs hs : List UploadedFile) (i total : Nat) (c : Cache),
      processFiles E (gs ++ hs) i total c =
        match processFiles E gs i total c with
        | .error e => .error e
        | .ok r =>
          match processFiles E hs (i + gs.length) total r.cache with
          | .error e => .error e
          | .ok r2 => .ok ⟨r.rows ++ r2.rows, r.progress ++ r2.progress, r2.cache⟩ := by
  intro gs
  induction gs with
  | nil =>
    intro hs i total c
    simp only [List.nil_append, processFiles, List.length_nil, Nat.add_zero]
    cases h : processFiles E hs i total c with
    | error e => rfl
    | ok r2 => rfl
  | cons f gs ih =>
    intro hs i total c
    have harith : i + 1 + gs.length = i + (gs.length + 1) := by omega
    simp only [List.cons_append, processFiles, List.length_cons, List.append_eq]
    by_cases hext : file_extension f.name = ".pdf"
    · simp only [if_pos hext]
      cases hr : pdf_to_images_robust E f.bytes 300 with
      | error e =>
        simp only []
        rw [ih hs (i + 1) total c, harith]
      | ok imgs =>
        simp only []
        rw [ih hs (i + 1) total (pdfLoop E f.name imgs 1 c).2.1]
        cases h1 : processFiles E gs (i + 1) total (pdfLoop E f.name imgs 1 c).2.1 with
        | error e => rfl
        | ok r =>
          rw [harith]
          simp only []
          cases h2 : processFiles E hs (i + (gs.length + 1)) total r.cache with
          | error e => rfl
          | ok r2 => simp [List.append_assoc]
    · simp only [if_neg hext]
      cases hrow : rowOf f.name (cachedParse E.llm c f.bytes).value with
      | error e => rfl
      | ok row =>
        simp only []
        rw [ih hs (i + 1) total (cachedParse E.llm c f.bytes).cache]
        cases h1 : processFiles E gs (i + 1) total (cachedParse E.llm c f.bytes).cache with
        | error e => rfl
        | ok r =>
          rw [harith]
          simp only []
          cases h2 : processFiles E hs (i + (gs.length + 1)) total r.cache with
          | error e => rfl
          | ok r2 => simp

/-- Helper: the rows and the final cache of a batch do not depend on the
starting document index or the reported total — those feed only the
progress updates. -/
theorem processFiles_rowsCache_irrel {Image Page : Type} (E : OrchEnv Image Page) :
    ∀ (fs : List UploadedFile) (i i' total total' : Nat) (c : Cache),
      (processFiles E fs i total c).map (fun r => (r.rows, r.cache))
        = (processFiles E fs i' total' c).map (fun r => (r.rows, r.cache)) := by
  intro fs
  induction fs with
  | nil => intro i i' total total' c; rfl
  | cons f fs ih =>
    intro i i' total total' c
    by_cases hext : file_extension f.name = ".pdf"
    · simp only [processFiles, if_pos hext]
      cases hr : pdf_to_images_robust E f.bytes 300 with
      | error e => exact ih (i + 1) (i' + 1) total total' c
      | ok imgs =>
        simp only []
        have h := ih (i + 1) (i' + 1) total total' (pdfLoop E f.name imgs 1 c).2.1
        cases h1 : processFiles E fs (i + 1) total (pdfLoop E f.name imgs 1 c).2.1 with
        | error e =>
          cases h2 : processFiles E fs (i' + 1) total' (pdfLoop E f.name imgs 1 c).2.1 with
          | error e2 =>
            rw [h1, h2] at h
            simp only [Except.map] at h
            injection h with h3
            rw [h3]
          | ok r2 =>
            rw [h1, h2] at h
            simp [Except.map] at h
        | ok r1 =>
          cases h2 : processFiles E fs (i' + 1) total' (pdfLoop E f.name imgs 1 c).2.1 with
          | error e2 =>
            rw [h1, h2] at h
            simp [Except.map] at h
          | ok r2 =>
            rw [h1, h2] at h
            simp only [Except.map, Except.ok.injEq, Prod.mk.injEq] at h
            simp [Except.map, h.1, h.2]
    · simp only [processFiles, if_neg hext]
      cases hrow : rowOf f.name (cachedParse E.llm c f.bytes).value with
      | error e => rfl
      | ok row =>
        simp only []
        have h := ih (i + 1) (i' + 1) total total' (cachedParse E.llm c f.bytes).cache
        cases h1 : processFiles E fs (i + 1) total (cachedParse E.llm c f.bytes).cache with
        | error e =>
          cases h2 : processFiles E fs (i' + 1) total' (cachedParse E.llm c f.bytes).cache with
          | error e2 =>
            rw [h1, h2] at h
            simp only [Except.map] at h
            injection h with h3
            rw [h3]
          | ok r2 =>
            rw [h1, h2] at h
            simp [Except.map] at h
        | ok r1 =>
          cases h2 : processFiles E fs (i' + 1) total' (cachedParse E.llm c f.bytes).cache with
          | error e2 =>
            rw [h1, h2] at h
            simp [Except.map] at h
          | ok r2 =>
            rw [h1, h2] at h
            simp only [Except.map, Except.ok.injEq, Prod.mk.injEq] at h
            simp [Except.map, h.1, h.2]

/-- C1 counterexample: a PDF whose rendering yields exactly one page is
labeled "doc.pdf - Page 1", not its bare name "doc.pdf" — the label is
chosen by file extension, not by the actual rendered page count, so the
claimed single-page bare-name rule is false for single-page PDFs. -/
theorem C1_counterexample :
    (process scenEnv [⟨"doc.pdf", [4]⟩]).map
        (fun r => r.rows.map (fun row => row.file_name))
      = Except.ok ["doc.pdf - Page 1"] ∧
    "doc.pdf - Page 1" ≠ "doc.pdf" :=
  ⟨rfl, by decide⟩

/-- C1 as amended: the row label is determined by the file extension —
every page of a document with a .pdf extension is labeled
name - Page p with p running 1..N in page order, even when N = 1, while
a document with any other extension yields one row labeled with its bare
name (assuming extraction results are objects, as they always are when
json.loads yields objects). -/
theorem C1_label_from_extension {Image Page : Type} (E : OrchEnv Image Page)
    (f : UploadedFile) (i total : Nat) (c : Cache)
    (hE : objValued E.llm) (hc : cacheObjs c) :
    (∀ imgs, file_extension f.name = ".pdf" →
        pdf_to_images_robust E f.bytes 300 = Except.ok imgs →
        (processFiles E [f] i total c).map
            (fun r => r.rows.map (fun row => row.file_name))
          = Except.ok ((List.range imgs.length).map
              (fun p => pageLabel f.name (p + 1)))) ∧
    (file_extension f.name ≠ ".pdf" →
        (processFiles E [f] i total c).map
            (fun r => r.rows.map (fun row => row.file_name))
          = Except.ok [f.name]) := by
  constructor
  · intro imgs hext hrender
    have hs := pdfLoop_spec E f.name hE imgs 1 c hc
    have harith : ∀ p : Nat, 1 + p = p + 1 := fun p => Nat.add_comm 1 p
    simp only [processFiles, if_pos hext, hrender, Except.map, List.append_nil]
    rw [hs.2.1]
    simp only [harith]
  · intro hext
    have hcp := cachedParse_isObj E.llm c f.bytes hE hc
    obtain ⟨kvs, hv⟩ := isObj_exists _ hcp.1
    simp only [processFiles, if_neg hext, hv, rowOf, Except.map, List.map_cons,
      List.map_nil]

/-- Witness for C1: a two-page PDF is labeled page by page, and an image
file keeps its bare name, in the concrete scenario environment. -/
theorem C1_witness :
    (processFiles scenEnv [⟨"multi.pdf", [1]⟩] 0 1 []).map
        (fun r => r.rows.map (fun row => row.file_name))
      = Except.ok ((List.range 2).map (fun p => pageLabel "multi.pdf" (p + 1))) ∧
    (processFiles scenEnv [fileC] 0 1 []).map
        (fun r => r.rows.map (fun row => row.file_name))
      = Except.ok ["c.jpg"] :=
  ⟨(C1_label_from_extension scenEnv ⟨"multi.pdf", [1]⟩ 0 1 []
      envFail_objValued cacheObjs_nil).1 [10, 11] rfl rfl,
   (C1_label_from_extension scenEnv fileC 0 1 []
      envFail_objValued cacheObjs_nil).2 (by decide)⟩

/-- C2: render-failure isolation with order preservation — a PDF
document whose robust rendering raises contributes zero rows and leaves
every other document's rows untouched (the batch with the failed
document has exactly the rows of the batch without it), and the batch
loop processes documents strictly in input order, concatenating each
document's rows in sequence with pages in rendered order. -/
theorem C2_render_failure_isolation {Image Page : Type} (E : OrchEnv Image Page)
    (fs1 fs2 : List UploadedFile) (D : UploadedFile) (c : Cache)
    (i total total' : Nat) (err : String)
    (hpdf : file_extension D.name = ".pdf")
    (hfail : pdf_to_images_robust E D.bytes 300 = Except.error err) :
    ((processFiles E (fs1 ++ D :: fs2) i total c).map (fun r => r.rows)
      = (processFiles E (fs1 ++ fs2) i total' c).map (fun r => r.rows)) ∧
    (∀ (gs hs : List UploadedFile) (j n : Nat) (c' : Cache),
      processFiles E (gs ++ hs) j n c' =
        match processFiles E gs j n c' with
        | .error e => .error e
        | .ok r =>
          match processFiles E hs (j + gs.length) n r.cache with
          | .error e => .error e
          | .ok r2 => .ok ⟨r.rows ++ r2.rows, r.progress ++ r2.progress, r2.cache⟩) := by
  refine ⟨?_, fun gs hs j n c' => processFiles_append E gs hs j n c'⟩
  rw [processFiles_append E fs1 (D :: fs2) i total c,
    processFiles_append E fs1 fs2 i total' c]
  have h0 := processFiles_rowsCache_irrel E fs1 i i total total' c
  cases ha : processFiles E fs1 i total c with
  | error e =>
    cases hb : processFiles E fs1 i total' c with
    | error e2 =>
      rw [ha, hb] at h0
      simp only [Except.map] at h0
      injection h0 with h3
      rw [h3]
    | ok r =>
      rw [ha, hb] at h0
      simp [Except.map] at h0
  | ok r1 =>
    cases hb : processFiles E fs1 i total' c with
    | error e2 =>
      rw [ha, hb] at h0
      simp [Except.map] at h0
    | ok r2 =>
      rw [ha, hb] at h0
      simp only [Except.map, Except.ok.injEq, Prod.mk.injEq] at h0
      simp only []
      have hD : processFiles E (D :: fs2) (i + fs1.length) total r1.cache
          = processFiles E fs2 (i + fs1.length + 1) total r1.cache := by
        simp only [processFiles, if_pos hpdf, hfail]
      rw [hD, h0.2]
      have h1 := processFiles_rowsCache_irrel E fs2 (i + fs1.length + 1)
        (i + fs1.length) total total' r2.cache
      cases hc2 : processFiles E fs2 (i + fs1.length + 1) total r2.cache with
      | error e =>
        cases hd2 : processFiles E fs2 (i + fs1.length) total' r2.cache with
        | error e2 =>
          rw [hc2, hd2] at h1
          simp only [Except.map] at h1
          injection h1 with h3
          rw [h3]
        | ok rb =>
          rw [hc2, hd2] at h1
          simp [Except.map] at h1
      | ok ra =>
        cases hd2 : processFiles E fs2 (i + fs1.length) total' r2.cache with
        | error e2 =>
          rw [hc2, hd2] at h1
          simp [Except.map] at h1
        | ok rb =>
          rw [hc2, hd2] at h1
          simp only [Except.map, Except.ok.injEq, Prod.mk.injEq] at h1
          simp [Except.map, h0.1, h1.1]

/-- Witness for C2: in the concrete scenario of a two-page PDF A, a PDF
B failing both rendering backends, and an image C, the rows with B
present equal the rows with B removed, and the row sequence is exactly
A page 1, A page 2, then C. -/
theorem C2_witness :
    (processFiles scenEnv [fileA, fileB, fileC] 0 3 []).map (fun r => r.rows)
      = (processFiles scenEnv [fileA, fileC] 0 2 []).map (fun r => r.rows) ∧
    (processFiles scenEnv [fileA, fileB, fileC] 0 3 []).map
        (fun r => r.rows.map (fun row => row.file_name))
      = Except.ok ["a.pdf - Page 1", "a.pdf - Page 2", "c.jpg"] :=
  ⟨(C2_render_failure_isolation scenEnv [fileA] [fileC] fileB [] 0 3 2
      "fitz fail" rfl rfl).1, rfl⟩

/-- C4 counterexample: a non-PDF input is never decoded or re-encoded —
its raw bytes go straight to the extraction client (the memoization
cache is keyed by the raw file bytes [3]), and when extraction fails the
file still contributes exactly one all-null row, not zero rows. -/
theorem C4_counterexample :
    process scenEnv [fileC] =
      Except.ok ⟨[⟨"c.jpg", Json.null, Json.null, Json.null, Json.null,
        Json.null, Json.null⟩], [(1, 1)], [([3], nullFields)]⟩ ∧
    (process scenEnv [fileC]).map (fun r => r.rows.map (fun row => row.file_name))
      = Except.ok ["c.jpg"] ∧
    ["c.jpg"] ≠ ([] : List String) :=
  ⟨rfl, rfl, by decide⟩

/-- C4 as amended: the non-PDF branch performs no decoding and no JPEG
re-encoding and has no render-failure path — the raw document bytes are
passed unmodified to the cached extraction client, and a failing
extraction still appends exactly one row, labeled with the bare file
name and carrying all six fields null, with a progress update. -/
theorem C4_nonpdf_raw_bytes {Image Page : Type} (E : OrchEnv Image Page)
    (f : UploadedFile) (c : Cache) (i total : Nat) (err : String)
    (hext : file_extension f.name ≠ ".pdf")
    (hmiss : cacheFind f.bytes c = none)
    (hfail : llmCall E.llm f.bytes = Except.error err) :
    processFiles E [f] i total c =
      Except.ok ⟨[⟨f.name, Json.null, Json.null, Json.null, Json.null,
        Json.null, Json.null⟩], [(i + 1, total)], (f.bytes, nullFields) :: c⟩ := by
  have hp : parse_with_llm E.llm f.bytes = nullFields := by
    unfold parse_with_llm
    rw [hfail]
  simp only [processFiles, if_neg hext, cachedParse, hmiss, hp]
  rfl

/-- Witness for C4: the concrete failing scenario environment on the
image file C, starting from the empty cache. -/
theorem C4_witness :
    processFiles scenEnv [fileC] 3 7 [] =
      Except.ok ⟨[⟨"c.jpg", Json.null, Json.null, Json.null, Json.null,
        Json.null, Json.null⟩], [(4, 7)], [([3], nullFields)]⟩ :=
  C4_nonpdf_raw_bytes scenEnv fileC [] 3 7 "network error" (by decide) rfl rfl

/-- C5 counterexample: in a three-document batch whose middle PDF fails
to render, only two progress updates are issued — the failed document
triggers none (there is no (2, 3) update), refuting the claim that the
progress callback fires exactly once after every document including
failures. -/
theorem C5_counterexample :
    (process scenEnv [fileA, fileB, fileC]).map (fun r => r.progress)
      = Except.ok [(1, 3), (3, 3)] ∧
    ¬ ((2, 3) ∈ [((1 : Nat), (3 : Nat)), (3, 3)]) ∧
    [((1 : Nat), (3 : Nat)), (3, 3)].length ≠ 3 :=
  ⟨rfl, by decide, by decide⟩

/-- C5 as amended: the progress update (completed, total) is issued
exactly once after each document whose processing completes without an
exception, but the except branch's continue skips it — a PDF document
whose rendering fails issues no progress update at all. -/
theorem C5_progress_only_on_success {Image Page : Type} (E : OrchEnv Image Page)
    (f : UploadedFile) (c : Cache) (i total : Nat)
    (hE : objValued E.llm) (hc : cacheObjs c) :
    (∀ err, file_extension f.name = ".pdf" →
        pdf_to_images_robust E f.bytes 300 = Except.error err →
        processFiles E [f] i total c = Except.ok ⟨[], [], c⟩) ∧
    (∀ imgs, file_extension f.name = ".pdf" →
        pdf_to_images_robust E f.bytes 300 = Except.ok imgs →
        (processFiles E [f] i total c).map (fun r => r.progress)
          = Except.ok [(i + 1, total)]) ∧
    (file_extension f.name ≠ ".pdf" →
        (processFiles E [f] i total c).map (fun r => r.progress)
          = Except.ok [(i + 1, total)]) := by
  refine ⟨?_, ?_, ?_⟩
  · intro err hext hfail
    simp only [processFiles, if_pos hext, hfail]
  · intro imgs hext hrender
    have hs := pdfLoop_spec E f.name hE imgs 1 c hc
    simp only [processFiles, if_pos hext, hrender, Except.map, hs.1,
      Bool.false_eq_true, if_false, List.append_nil]
  · intro hext
    have hcp := cachedParse_isObj E.llm c f.bytes hE hc
    obtain ⟨kvs, hv⟩ := isObj_exists _ hcp.1
    simp only [processFiles, if_neg hext, hv, rowOf, Except.map]

/-- Witness for C5: the failing PDF B issues no progress update, while
the succeeding PDF A and image C each issue exactly one. -/
theorem C5_witness :
    processFiles scenEnv [fileB] 0 1 [] = Except.ok ⟨[], [], []⟩ ∧
    (processFiles scenEnv [fileA] 0 1 []).map (fun r => r.progress)
      = Except.ok [(1, 1)] ∧
    (processFiles scenEnv [fileC] 0 1 []).map (fun r => r.progress)
      = Except.ok [(1, 1)] :=
  ⟨(C5_progress_only_on_success scenEnv fileB [] 0 1
      envFail_objValued cacheObjs_nil).1 "fitz fail" rfl rfl,
   (C5_progress_only_on_success scenEnv fileA [] 0 1
      envFail_objValued cacheObjs_nil).2.1 [10, 11] rfl rfl,
   (C5_progress_only_on_success scenEnv fileC [] 0 1
      envFail_objValued cacheObjs_nil).2.2 (by decide)⟩

/-- C7: the output row is built by reading exactly the six canonical
keys through dict.get — an extra key in the parsed record never changes
the constructed row (the row has no column for it), and an omitted
canonical key yields a null field value in the row. -/
theorem C7_row_key_whitelist (label : String) (kvs : List (String × Json))
    (k : String) (v : Json)
    (hk : ¬ k ∈ ["date_time", "company_name", "business_number", "address",
      "phone_number", "business_type"]) :
    rowOf label (Json.obj ((k, v) :: kvs)) = rowOf label (Json.obj kvs) ∧
    (∀ key ∈ ["date_time", "company_name", "business_number", "address",
        "phone_number", "business_type"],
      assocFind key kvs = none →
      ∃ r, rowOf label (Json.obj kvs) = Except.ok r ∧
        rowField r key = some Json.null) := by
  constructor
  · simp only [List.mem_cons, List.mem_singleton, not_or] at hk
    obtain ⟨h1, h2, h3, h4, h5, h6, -⟩ := hk
    simp [rowOf, dictGet, assocFind, h1, h2, h3, h4, h5, h6]
  · intro key hkey hnone
    fin_cases hkey <;>
      exact ⟨_, rfl, by simp [rowField, dictGet, hnone]⟩

/-- Witness for C7: a record with the extra key total_amount and with
the canonical key address missing produces the same row as without the
extra key, and the row's address field is null. -/
theorem C7_witness :
    rowOf "x" (Json.obj [("total_amount", Json.str "9"),
        ("company_name", Json.str "Acme")])
      = rowOf "x" (Json.obj [("company_name", Json.str "Acme")]) ∧
    ∃ r, rowOf "x" (Json.obj [("company_name", Json.str "Acme")]) = Except.ok r ∧
      rowField r "address" = some Json.null := by
  have h := C7_row_key_whitelist "x" [("company_name", Json.str "Acme")]
    "total_amount" (Json.str "9") (by decide)
  exact ⟨h.1, h.2 "address" (by decide) rfl⟩

end ReceiptOCR
